import Mathlib

/-!
Verification of the dai-portfolio home-page interaction scripts.

The development shallowly embeds three source files:
* `src/scripts/home-interaction.ts` (the variant with SVG connection lines),
  modelled in namespace `HomeInteraction`;
* the unnamed no-lines variant, modelled in namespace `NoLinesVariant`;
* `scripts/test-push.js` (the build checker), modelled in namespace `TestPush`.

Records (JS objects with string keys) are modelled as association lists in
insertion order, which matches `Object.entries` iteration order for the
non-numeric keys used throughout.
-/

/-- A JS `Record<string, string[]>`, in key insertion order. -/
abbrev Table := List (String × List String)

namespace HomeInteraction

/-- The authored forward table `tagToProjects` of the lines variant. -/
def tagToProjects : Table :=
  [("printmaker", ["masks", "closing_time"]),
   ("photographer", ["reframed_still", "closing_time", "quite_off"]),
   ("conceptual_designer", ["gallery_design", "the_threes"]),
   ("web_developer", ["quite_off", "the_threes"]),
   ("visual_artist", ["masks", "reframed_still", "closing_time", "quite_off", "the_threes"]),
   ("writer", ["the_threes", "quite_off"])]

/-- The authored accent colors `TAG_ACCENTS` of the lines variant. -/
def TAG_ACCENTS : List (String × String) :=
  [("web_developer", "#4a6fa5"),
   ("conceptual_designer", "#6b5b8a"),
   ("visual_artist", "#8b6b5c"),
   ("printmaker", "#4a7d6b"),
   ("photographer", "#9a7b4a"),
   ("writer", "#5c6b8a")]

/-- Whether a record has a (truthy) entry for key `k`: models the test
`!tbl[k]` being false. An existing entry is always an array, hence truthy. -/
def hasKey : Table → String → Bool
  | [], _ => false
  | e :: rest, k => e.1 == k || hasKey rest k

/-- The per-entry update mapped over the table when key `p` already exists:
the entry for `p` gets `tag` appended, every other entry is unchanged. -/
def bump (p tag : String) (x : String × List String) : String × List String :=
  if x.1 == p then (x.1, x.2 ++ [tag]) else x

/-- One iteration of the inner loop body of `buildProjectToTags`:
`if (!projectToTags[p]) projectToTags[p] = []; projectToTags[p].push(tag);` -/
def pushTag (tbl : Table) (p tag : String) : Table :=
  if hasKey tbl p then tbl.map (bump p tag) else tbl ++ [(p, [tag])]

/-- `buildProjectToTags`, parameterised by the forward table it closes over:
for each `[tag, projects]` of `Object.entries(forward)` in order, for each
`p` of `projects` in order, push `tag` onto `p`'s reverse list. -/
def buildProjectToTags (forward : Table) : Table :=
  forward.foldl (fun acc e => e.2.foldl (fun acc2 p => pushTag acc2 p e.1) acc) []

/-- The derived reverse table `projectToTags`, computed once at startup. -/
def projectToTags : Table := buildProjectToTags tagToProjects

/-- Record lookup with the `|| []` default: models `tbl[k] || []`
(first-match lookup, which coincides with JS object lookup since object
keys are unique). -/
def lookupD : Table → String → List String
  | [], _ => []
  | e :: rest, k => if e.1 == k then e.2 else lookupD rest k

/-- The reverse list for key `p` as the spec words the transpose: walk the
forward table in declaration order and emit the tag once per occurrence of
`p` in that tag's project list. -/
def transposeSpec : Table → String → List String
  | [], _ => []
  | e :: rest, p =>
      (e.2.filter (fun q => q == p)).map (fun _ => e.1) ++ transposeSpec rest p

/-- `FLIP_DURATION = 240` (ms). -/
def FLIP_DURATION : Nat := 240

/-- `CLEAR_DELAY_MS = 120` (ms). -/
def CLEAR_DELAY_MS : Nat := 120

/-- `LINE_Y_OFFSET_STEP = 6` (px). -/
def LINE_Y_OFFSET_STEP : ℚ := 6

/-- `BEZIER_DX = 140` (px). -/
def BEZIER_DX : ℚ := 140

/-- The fields of a `DOMRect` the script reads. -/
structure Rect where
  left : ℚ
  right : ℚ
  top : ℚ
  height : ℚ
deriving DecidableEq

/-- A 2D point in viewport pixel coordinates. -/
structure Pt where
  x : ℚ
  y : ℚ
deriving DecidableEq

/-- `projectAnchor`: right edge + 10px, visual midline 0.55. -/
def projectAnchor (rect : Rect) : Pt :=
  ⟨rect.right + 10, rect.top + rect.height * 0.55⟩

/-- `tagAnchor`: left edge - 10px, visual midline 0.55. -/
def tagAnchor (rect : Rect) : Pt :=
  ⟨rect.left - 10, rect.top + rect.height * 0.55⟩

/-- The bound elements `init` discovered: each tag element's `data-tag`
value and each project link's `data-project` value, with the bounding rect
`getBoundingClientRect` reports for it at measurement time. -/
structure Dom where
  tagEls : List (String × Rect)
  projEls : List (String × Rect)

/-- `tags.find((t) => t.getAttribute("data-tag") === tagKey)`. -/
def findTagEl (dom : Dom) (tagKey : String) : Option (String × Rect) :=
  dom.tagEls.find? (fun t => t.1 == tagKey)

/-- `projectLinks.find((a) => a.getAttribute("data-project") === projectKey)`. -/
def findProjectEl (dom : Dom) (projectKey : String) : Option (String × Rect) :=
  dom.projEls.find? (fun a => a.1 == projectKey)

/-- `TAG_ACCENTS[tagKey] ?? "#6a6a6a"`. -/
def tagAccent (tagKey : String) : String :=
  ((TAG_ACCENTS.find? (fun e => e.1 == tagKey)).map (fun e => e.2)).getD "#6a6a6a"

/-- `lineOpacity`: 0.22 for the umbrella tag `visual_artist`, else 0.48. -/
def lineOpacity (tagKey : String) : ℚ :=
  if tagKey == "visual_artist" then 0.22 else 0.48

/-- One connector rendered by `drawLines`: the cubic path
`M start C c1 c2 endp` plus its gradient paint. Both gradient stops carry
the same `stop-color` (`color`); their `stop-opacity` values are
`opacity * 0.6` at the source and `opacity` at the target. The random
`id`/`gradientUnits` attributes carry no geometry and are omitted. -/
structure Line where
  tag : String
  start : Pt
  c1 : Pt
  c2 : Pt
  endp : Pt
  color : String
  stopOpacity1 : ℚ
  stopOpacity2 : ℚ
deriving DecidableEq

/-- `drawLines`, as a pure function of the measured DOM and the active
state. Returns the connectors appended to the overlay (after `clearLines`);
a missing hovered element aborts with no lines, a missing counterpart
element is skipped silently. -/
def drawLines (dom : Dom) (activeTagKeys : List String)
    (activeProjectKey : Option String) : List Line :=
  if activeTagKeys.length == 1 then
    match activeTagKeys.head? with
    | none => []
    | some tagKey =>
      let projects := lookupD tagToProjects tagKey
      match findTagEl dom tagKey with
      | none => []
      | some tagEl =>
        let tagR := tagEl.2
        let accent := tagAccent tagKey
        let opacity := lineOpacity tagKey
        let n := projects.length
        projects.enum.filterMap (fun ip =>
          match findProjectEl dom ip.2 with
          | none => none
          | some link =>
            let linkR := link.2
            let offset := ((ip.1 : ℚ) - ((n : ℚ) - 1) / 2) * LINE_Y_OFFSET_STEP
            let start0 := projectAnchor linkR
            let end0 := tagAnchor tagR
            let start := Pt.mk start0.x (start0.y + offset)
            let endp := Pt.mk end0.x (end0.y + offset)
            some { tag := tagKey,
                   start := start,
                   c1 := ⟨start.x + BEZIER_DX, start.y⟩,
                   c2 := ⟨endp.x - BEZIER_DX, endp.y⟩,
                   endp := endp,
                   color := accent,
                   stopOpacity1 := opacity * 0.6,
                   stopOpacity2 := opacity })
  else
    match activeProjectKey with
    | none => []
    | some projectKey =>
      let tagKeys := lookupD projectToTags projectKey
      match findProjectEl dom projectKey with
      | none => []
      | some link =>
        let linkR := link.2
        let n := tagKeys.length
        tagKeys.enum.filterMap (fun it =>
          match findTagEl dom it.2 with
          | none => none
          | some tagEl =>
            let tagR := tagEl.2
            let offset := ((it.1 : ℚ) - ((n : ℚ) - 1) / 2) * LINE_Y_OFFSET_STEP
            let start0 := projectAnchor linkR
            let end0 := tagAnchor tagR
            let start := Pt.mk start0.x (start0.y + offset)
            let endp := Pt.mk end0.x (end0.y + offset)
            some { tag := it.2,
                   start := start,
                   c1 := ⟨start.x + BEZIER_DX, start.y⟩,
                   c2 := ⟨endp.x - BEZIER_DX, endp.y⟩,
                   endp := endp,
                   color := tagAccent it.2,
                   stopOpacity1 := lineOpacity it.2 * 0.6,
                   stopOpacity2 := lineOpacity it.2 })

/-- The controller's mutable state: the active key variables, the
`is-active` / `is-highlight` class of every bound element (parallel to
`Dom.tagEls` / `Dom.projEls`), and the pending `scheduleClear` timeout's
fire time (`none` when `clearTimeoutId` is null). -/
structure St where
  activeTagKeys : List String
  activeProjectKey : Option String
  tagActive : List Bool
  projHighlight : List Bool
  clearDeadline : Option Nat
deriving DecidableEq

/-- The state right after `init`: no active keys, no state classes, no
pending timer. -/
def initState (dom : Dom) : St :=
  ⟨[], none, dom.tagEls.map (fun _ => false), dom.projEls.map (fun _ => false), none⟩

/-- `clearActive`: remove `is-active` and `is-highlight` everywhere and
reset the active keys (the timer field is managed by the caller). -/
def clearActive (dom : Dom) (s : St) : St :=
  { s with activeTagKeys := [],
           activeProjectKey := none,
           tagActive := dom.tagEls.map (fun _ => false),
           projHighlight := dom.projEls.map (fun _ => false) }

/-- `scheduleClear` at time `t`: clear any pending timeout and install one
that fires `CLEAR_DELAY_MS` later. -/
def scheduleClear (t : Nat) (s : St) : St :=
  { s with clearDeadline := some (t + CLEAR_DELAY_MS) }

/-- `setActiveTag`: `cancelClear()`, then set every element's class with an
explicit boolean derived from the hovered tag key alone. -/
def setActiveTag (dom : Dom) (tagKey : String) (_s : St) : St :=
  let projects := lookupD tagToProjects tagKey
  { activeTagKeys := [tagKey],
    activeProjectKey := none,
    tagActive := dom.tagEls.map (fun el => el.1 == tagKey),
    projHighlight := dom.projEls.map (fun el => projects.contains el.1),
    clearDeadline := none }

/-- `setActiveProject`: `cancelClear()`, then set every element's class
with an explicit boolean derived from the hovered project key alone. -/
def setActiveProject (dom : Dom) (projectKey : String) (_s : St) : St :=
  let tagKeys := lookupD projectToTags projectKey
  { activeTagKeys := tagKeys,
    activeProjectKey := some projectKey,
    tagActive := dom.tagEls.map (fun el => tagKeys.contains el.1),
    projHighlight := dom.projEls.map (fun el => el.1 == projectKey),
    clearDeadline := none }

/-- Deliver the pending `setTimeout` callback if its deadline has been
reached by time `t`: the callback nulls `clearTimeoutId` and runs
`clearActive`. -/
def advanceTo (dom : Dom) (t : Nat) (s : St) : St :=
  match s.clearDeadline with
  | none => s
  | some d =>
      if d ≤ t then clearActive dom { s with clearDeadline := none } else s

/-- The hover events the controller listens for. -/
inductive Action where
  | enterTag (tagKey : String)
  | enterProject (projectKey : String)
  | leave
deriving DecidableEq

/-- One timestamped event: a timer whose deadline has passed fires before
the listener runs; `mouseenter` runs `setActiveTag`/`setActiveProject`,
`mouseleave` runs `scheduleClear`. -/
def act (dom : Dom) (ev : Nat × Action) (s : St) : St :=
  let s1 := advanceTo dom ev.1 s
  match ev.2 with
  | Action.enterTag k => setActiveTag dom k s1
  | Action.enterProject k => setActiveProject dom k s1
  | Action.leave => scheduleClear ev.1 s1

/-- Run a timestamped event trace from the idle initial state. -/
def run (dom : Dom) (evs : List (Nat × Action)) : St :=
  evs.foldl (fun s ev => act dom ev s) (initState dom)

/-- C6's invariant: the state is idle, tag-driven, or project-driven; the
hover target is a single tag, a single project, or nothing, and every class
and the opposite active set are derived from it via the association
tables. -/
def Inv (dom : Dom) (s : St) : Prop :=
  (s.activeTagKeys = [] ∧ s.activeProjectKey = none ∧
     s.tagActive = dom.tagEls.map (fun _ => false) ∧
     s.projHighlight = dom.projEls.map (fun _ => false)) ∨
  (∃ k, s.activeTagKeys = [k] ∧ s.activeProjectKey = none ∧
     s.tagActive = dom.tagEls.map (fun el => el.1 == k) ∧
     s.projHighlight =
       dom.projEls.map (fun el => (lookupD tagToProjects k).contains el.1)) ∨
  (∃ p, s.activeProjectKey = some p ∧
     s.activeTagKeys = lookupD projectToTags p ∧
     s.tagActive =
       dom.tagEls.map (fun el => (lookupD projectToTags p).contains el.1) ∧
     s.projHighlight = dom.projEls.map (fun el => el.1 == p))

end HomeInteraction

namespace NoLinesVariant

/-- The authored forward table `tagToProjects` of the no-lines variant. -/
def tagToProjects : Table :=
  [("dai_pan", ["about"]),
   ("printmaker", ["masks", "closing_time"]),
   ("photographer", ["reframed_still", "closing_time", "quite_off"]),
   ("conceptual_designer", ["gallery_design", "the_threes"]),
   ("web_developer", ["quite_off", "the_threes"]),
   ("visual_artist", ["masks", "reframed_still", "closing_time", "quite_off", "the_threes"]),
   ("writer", ["the_threes", "quite_off"])]

/-- The authored accent colors `TAG_ACCENTS` of the no-lines variant. -/
def TAG_ACCENTS : List (String × String) :=
  [("dai_pan", "#2d3748"),
   ("web_developer", "#4a6fa5"),
   ("conceptual_designer", "#6b5b8a"),
   ("visual_artist", "#8b6b5c"),
   ("printmaker", "#4a7d6b"),
   ("photographer", "#9a7b4a"),
   ("writer", "#5c6b8a")]

/-- Truthiness of `out[p]` in the no-lines variant loop. -/
def hasKey : Table → String → Bool
  | [], _ => false
  | e :: rest, k => e.1 == k || hasKey rest k

/-- The per-entry update mapped over `out` when key `p` already exists. -/
def bump (p tag : String) (x : String × List String) : String × List String :=
  if x.1 == p then (x.1, x.2 ++ [tag]) else x

/-- `if (!out[p]) out[p] = []; out[p].push(tag);` of the no-lines variant. -/
def pushTag (tbl : Table) (p tag : String) : Table :=
  if hasKey tbl p then tbl.map (bump p tag) else tbl ++ [(p, [tag])]

/-- `buildProjectToTags` of the no-lines variant, parameterised by the
forward table it closes over. -/
def buildProjectToTags (forward : Table) : Table :=
  forward.foldl (fun acc e => e.2.foldl (fun acc2 p => pushTag acc2 p e.1) acc) []

/-- The derived reverse table of the no-lines variant. -/
def projectToTags : Table := buildProjectToTags tagToProjects

end NoLinesVariant

/-- The elements `init` queries before deciding whether to set up: the tag
elements (by their `data-tag` attribute), the project links (by
`data-project`), and whether the `#home-lines` SVG overlay exists. -/
structure Doc where
  tagEls : List String
  projEls : List String
  hasSvgOverlay : Bool

namespace HomeInteraction

/-- The guard of `init` in the lines variant:
`if (!tags.length || !svgOverlay) return;` — `true` iff setup proceeds. -/
def initProceeds (d : Doc) : Bool :=
  !(d.tagEls.length == 0 || !d.hasSvgOverlay)

end HomeInteraction

namespace NoLinesVariant

/-- The guard of `init` in the no-lines variant: `if (!tags.length) return;`
— `true` iff setup proceeds. -/
def initProceeds (d : Doc) : Bool :=
  !(d.tagEls.length == 0)

end NoLinesVariant

namespace HomeInteraction

/-- A concrete page for witnesses: all six tag elements on the right, all
six project links on the left, 20px tall, stacked 40px apart. -/
def demoDom : Dom :=
  { tagEls := [("printmaker", ⟨500, 580, 0, 20⟩),
               ("photographer", ⟨500, 580, 40, 20⟩),
               ("conceptual_designer", ⟨500, 580, 80, 20⟩),
               ("web_developer", ⟨500, 580, 120, 20⟩),
               ("visual_artist", ⟨500, 580, 160, 20⟩),
               ("writer", ⟨500, 580, 200, 20⟩)],
    projEls := [("masks", ⟨40, 200, 0, 20⟩),
                ("reframed_still", ⟨40, 200, 40, 20⟩),
                ("closing_time", ⟨40, 200, 80, 20⟩),
                ("quite_off", ⟨40, 200, 120, 20⟩),
                ("gallery_design", ⟨40, 200, 160, 20⟩),
                ("the_threes", ⟨40, 200, 200, 20⟩)] }

/-- The first connector `drawLines` renders on `demoDom` while the tag
`printmaker` is hovered (to project `masks`, fan offset -3px). -/
def demoLine : Line :=
  { tag := "printmaker",
    start := ⟨210, 8⟩,
    c1 := ⟨350, 8⟩,
    c2 := ⟨350, 8⟩,
    endp := ⟨490, 8⟩,
    color := "#4a7d6b",
    stopOpacity1 := 0.288,
    stopOpacity2 := 0.48 }

end HomeInteraction

namespace TestPush

/-- Models JS `s.includes(sub)`: some position of `s` starts with `sub`. -/
def includesStr (s sub : String) : Bool :=
  (List.range (s.data.length + 1)).any (fun i => sub.data.isPrefixOf (s.data.drop i))

/-- Models `(s.match(/<loc>/g) || []).length`: the count of positions where
`<loc>` starts (the pattern cannot overlap itself, so this equals the
regex's non-overlapping count). -/
def countLoc (s : String) : Nat :=
  (List.range (s.data.length + 1)).countP
    (fun i => "<loc>".data.isPrefixOf (s.data.drop i))

/-- `fs.existsSync` over the modelled `dist/` contents (path, text). -/
def existsSync (files : List (String × String)) (p : String) : Bool :=
  (files.find? (fun f => f.1 == p)).isSome

/-- `fs.readFileSync` over the modelled `dist/` contents; only ever called
behind an `existsSync` guard, so the default is unreachable. -/
def readFileSync (files : List (String × String)) (p : String) : String :=
  (((files.find? (fun f => f.1 == p)).map (fun f => f.2)).getD "")

/-- `SITE_URL`. -/
def SITE_URL : String := "https://daipan.art"

/-- `requiredPaths`. -/
def requiredPaths : List String :=
  ["index.html", "robots.txt", "sitemap-index.xml", "sitemap-0.xml",
   "about/index.html", "contact/index.html", "closing_time/index.html",
   "gallery_design/index.html", "masks/index.html", "quite_off/index.html",
   "reframed_still/index.html", "the_threes/index.html", "404.html"]

/-- What the script observably does: the `console.log` lines in order, the
final value of the `failed` counter, and the `process.exit` code. -/
structure CheckResult where
  logs : List String
  failed : Nat
  exitCode : Nat
deriving DecidableEq

/-- Check 1 body for one required path: one log line, and `failed++` when
the file is missing. -/
def pathCheck (ex : Bool) (p : String) : String × Nat :=
  if ex then ("  ✓ " ++ p, 0) else ("  ✗ MISSING: " ++ p, 1)

/-- Check 2: robots.txt content (runs only when the file exists). -/
def robotsChecks (files : List (String × String)) : List String × Nat :=
  if existsSync files "robots.txt" then
    let robots := readFileSync files "robots.txt"
    let r1 : List String × Nat :=
      if !(includesStr robots "Allow:") || !(includesStr robots "Sitemap:") then
        (["\n  ✗ robots.txt should contain Allow and Sitemap"], 1)
      else ([], 0)
    let r2 : List String × Nat :=
      if !(includesStr robots SITE_URL) then
        (["\n  ✗ robots.txt Sitemap should use " ++ SITE_URL], 1)
      else ([], 0)
    (r1.1 ++ r2.1, r1.2 + r2.2)
  else ([], 0)

/-- Check 3a: sitemap-index.xml references the site URL. -/
def sitemapIndexCheck (files : List (String × String)) : List String × Nat :=
  if existsSync files "sitemap-index.xml" then
    let sitemap := readFileSync files "sitemap-index.xml"
    if !(includesStr sitemap SITE_URL) then
      (["\n  ✗ sitemap-index.xml should reference " ++ SITE_URL], 1)
    else ([], 0)
  else ([], 0)

/-- Check 3b: sitemap-0.xml holds at least 9 `<loc>` entries. -/
def sitemap0Check (files : List (String × String)) : List String × Nat :=
  if existsSync files "sitemap-0.xml" then
    let sitemap0 := readFileSync files "sitemap-0.xml"
    let urlCount := countLoc sitemap0
    if urlCount < 9 then
      (["\n  ✗ sitemap-0.xml expected at least 9 URLs, got " ++ toString urlCount], 1)
    else ([], 0)
  else ([], 0)

/-- Check 4: homepage canonical link and title. The source tests the same
canonical string twice (`'href="..."'` and `"href=\"...\""` are the same
text), transcribed as the same conjunction. -/
def indexCheck (files : List (String × String)) : List String × Nat :=
  if existsSync files "index.html" then
    let html := readFileSync files "index.html"
    let c1 : List String × Nat :=
      if !(includesStr html "href=\"https://daipan.art\"") &&
         !(includesStr html "href=\"https://daipan.art\"") then
        (["\n  ✗ index.html should contain canonical https://daipan.art"], 1)
      else ([], 0)
    let c2 : List String × Nat :=
      if !(includesStr html "<title>") then
        (["\n  ✗ index.html should have a title"], 1)
      else ([], 0)
    (c1.1 ++ c2.1, c1.2 + c2.2)
  else ([], 0)

/-- The whole `test-push.js` run over the modelled `dist/` contents. -/
def testPush (files : List (String × String)) : CheckResult :=
  let pathResults := requiredPaths.map (fun p => pathCheck (existsSync files p) p)
  let logs1 := "[test-push] Checking dist output...\n" :: pathResults.map (fun r => r.1)
  let failed1 := (pathResults.map (fun r => r.2)).sum
  let r2 := robotsChecks files
  let r3 := sitemapIndexCheck files
  let r4 := sitemap0Check files
  let r5 := indexCheck files
  let failed := failed1 + r2.2 + r3.2 + r4.2 + r5.2
  let summary :=
    if failed > 0 then
      ["", "[test-push] FAILED: " ++ toString failed ++ " check(s) failed.\n"]
    else
      ["", "[test-push] All checks passed. Safe to push.\n"]
  { logs := logs1 ++ r2.1 ++ r3.1 ++ r4.1 ++ r5.1 ++ summary,
    failed := failed,
    exitCode := if failed > 0 then 1 else 0 }

/-- A log line reporting one unmet condition (they all start with `✗` after
indentation, possibly behind a leading newline; no other output does). -/
def isFailLine (l : String) : Bool :=
  "  ✗".data.isPrefixOf l.data || "\n  ✗".data.isPrefixOf l.data

/-- Every check passes, as the spec words it: every required path exists,
robots.txt carries Allow/Sitemap and the site URL, sitemap-index.xml
references the site URL, sitemap-0.xml has at least 9 URL entries, and the
homepage has the canonical link and a title. -/
def allChecksPass (files : List (String × String)) : Bool :=
  requiredPaths.all (fun p => existsSync files p) &&
  includesStr (readFileSync files "robots.txt") "Allow:" &&
  includesStr (readFileSync files "robots.txt") "Sitemap:" &&
  includesStr (readFileSync files "robots.txt") SITE_URL &&
  includesStr (readFileSync files "sitemap-index.xml") SITE_URL &&
  decide (9 ≤ countLoc (readFileSync files "sitemap-0.xml")) &&
  includesStr (readFileSync files "index.html") "href=\"https://daipan.art\"" &&
  includesStr (readFileSync files "index.html") "<title>"

end TestPush

-- ===== Theorems =====

namespace HomeInteraction

theorem bump_fst (p tag : String) (x : String × List String) :
    (bump p tag x).1 = x.1 := by
  unfold bump
  split <;> rfl

theorem bump_of_eq (p tag : String) (x : String × List String)
    (h : (x.1 == p) = true) : bump p tag x = (x.1, x.2 ++ [tag]) := by
  unfold bump
  rw [h]
  rfl

theorem bump_of_ne (p tag : String) (x : String × List String)
    (h : (x.1 == p) = false) : bump p tag x = x := by
  unfold bump
  rw [h]
  rfl

theorem lookupD_eq_nil_of_not_hasKey (tbl : Table) (p : String)
    (h : hasKey tbl p = false) : lookupD tbl p = [] := by
  induction tbl with
  | nil => rfl
  | cons e rest ih =>
    simp only [hasKey, Bool.or_eq_false_iff] at h
    simp only [lookupD, h.1, Bool.false_eq_true, if_false]
    exact ih h.2

theorem lookupD_append_right (t1 t2 : Table) (p : String)
    (h : hasKey t1 p = false) : lookupD (t1 ++ t2) p = lookupD t2 p := by
  induction t1 with
  | nil => rfl
  | cons e rest ih =>
    simp only [hasKey, Bool.or_eq_false_iff] at h
    simp only [List.cons_append, lookupD, h.1, Bool.false_eq_true, if_false]
    exact ih h.2

theorem lookupD_append_left (t1 t2 : Table) (p : String)
    (h : hasKey t1 p = true) : lookupD (t1 ++ t2) p = lookupD t1 p := by
  induction t1 with
  | nil => simp [hasKey] at h
  | cons e rest ih =>
    by_cases he : (e.1 == p) = true
    · simp only [List.cons_append, lookupD, he, if_true]
    · simp only [Bool.not_eq_true] at he
      have hrest : hasKey rest p = true := by
        simpa only [hasKey, he, Bool.false_or] using h
      simp only [List.cons_append, lookupD, he, Bool.false_eq_true, if_false]
      exact ih hrest

theorem lookupD_map_bump_ne (tbl : Table) (q t p : String)
    (h : (q == p) = false) :
    lookupD (tbl.map (bump q t)) p = lookupD tbl p := by
  induction tbl with
  | nil => rfl
  | cons e rest ih =>
    rw [List.map_cons]
    by_cases he : (e.1 == p) = true
    · have heq : e.1 = p := by simpa using he
      have hq : (e.1 == q) = false := by
        have hne : q ≠ p := by simpa using h
        rw [heq]
        simpa using fun hc => hne hc.symm
      rw [bump_of_ne q t e hq]
      simp only [lookupD, he, if_true]
    · simp only [Bool.not_eq_true] at he
      simp only [lookupD, bump_fst, he, Bool.false_eq_true, if_false]
      exact ih

theorem lookupD_map_bump_eq (tbl : Table) (t p : String)
    (h : hasKey tbl p = true) :
    lookupD (tbl.map (bump p t)) p = lookupD tbl p ++ [t] := by
  induction tbl with
  | nil => simp [hasKey] at h
  | cons e rest ih =>
    rw [List.map_cons]
    by_cases he : (e.1 == p) = true
    · rw [bump_of_eq p t e he]
      simp only [lookupD, he, if_true]
    · simp only [Bool.not_eq_true] at he
      have hrest : hasKey rest p = true := by
        simpa only [hasKey, he, Bool.false_or] using h
      simp only [lookupD, bump_fst, he, Bool.false_eq_true, if_false]
      exact ih hrest

theorem hasKey_map_bump (tbl : Table) (q t p : String) :
    hasKey (tbl.map (bump q t)) p = hasKey tbl p := by
  induction tbl with
  | nil => rfl
  | cons e rest ih =>
    rw [List.map_cons]
    simp only [hasKey, bump_fst]
    rw [ih]

theorem hasKey_append (t1 t2 : Table) (p : String) :
    hasKey (t1 ++ t2) p = (hasKey t1 p || hasKey t2 p) := by
  induction t1 with
  | nil => rfl
  | cons e rest ih =>
    show (e.1 == p || hasKey (rest ++ t2) p) =
      ((e.1 == p || hasKey rest p) || hasKey t2 p)
    rw [ih, Bool.or_assoc]

theorem lookupD_pushTag (tbl : Table) (q t p : String) :
    lookupD (pushTag tbl q t) p =
      if q == p then lookupD tbl p ++ [t] else lookupD tbl p := by
  unfold pushTag
  by_cases hqp : (q == p) = true
  · rw [if_pos hqp]
    have heq : q = p := by simpa using hqp
    subst heq
    cases hk : hasKey tbl q with
    | true =>
      rw [if_pos rfl]
      exact lookupD_map_bump_eq tbl t q hk
    | false =>
      rw [if_neg (by simp)]
      rw [lookupD_append_right tbl [(q, [t])] q hk,
          lookupD_eq_nil_of_not_hasKey tbl q hk]
      simp [lookupD]
  · rw [if_neg hqp]
    have hqp2 : (q == p) = false := by simpa using hqp
    cases hk : hasKey tbl q with
    | true =>
      rw [if_pos rfl]
      exact lookupD_map_bump_ne tbl q t p hqp2
    | false =>
      rw [if_neg (by simp)]
      by_cases hp : hasKey tbl p = true
      · exact lookupD_append_left tbl [(q, [t])] p hp
      · simp only [Bool.not_eq_true] at hp
        rw [lookupD_append_right tbl [(q, [t])] p hp,
            lookupD_eq_nil_of_not_hasKey tbl p hp]
        simp [lookupD, hqp2]

theorem hasKey_pushTag (tbl : Table) (q t p : String) :
    hasKey (pushTag tbl q t) p = (hasKey tbl p || (q == p)) := by
  unfold pushTag
  cases hk : hasKey tbl q with
  | true =>
    rw [if_pos rfl, hasKey_map_bump]
    by_cases hqp : (q == p) = true
    · have heq : q = p := by simpa using hqp
      subst heq
      simp [hk, hqp]
    · have hqp2 : (q == p) = false := by simpa using hqp
      simp [hqp2]
  | false =>
    rw [if_neg (by simp), hasKey_append]
    simp [hasKey]

theorem lookupD_foldl_inner (ps : List String) (t p : String) (acc : Table) :
    lookupD (ps.foldl (fun a q => pushTag a q t) acc) p =
      lookupD acc p ++ (ps.filter (fun q => q == p)).map (fun _ => t) := by
  induction ps generalizing acc with
  | nil => simp
  | cons q ps ih =>
    rw [List.foldl_cons, ih, lookupD_pushTag]
    by_cases hqp : (q == p) = true
    · simp [List.filter_cons, hqp]
    · simp only [Bool.not_eq_true] at hqp
      simp [List.filter_cons, hqp]

theorem hasKey_foldl_inner (ps : List String) (t p : String) (acc : Table) :
    hasKey (ps.foldl (fun a q => pushTag a q t) acc) p =
      (hasKey acc p || ps.any (fun q => q == p)) := by
  induction ps generalizing acc with
  | nil => simp
  | cons q ps ih =>
    rw [List.foldl_cons, ih, hasKey_pushTag]
    simp [Bool.or_assoc]

theorem lookupD_buildFold (f : Table) (p : String) (acc : Table) :
    lookupD (f.foldl
        (fun acc2 e => e.2.foldl (fun a q => pushTag a q e.1) acc2) acc) p =
      lookupD acc p ++ transposeSpec f p := by
  induction f generalizing acc with
  | nil => simp [transposeSpec]
  | cons e f ih =>
    rw [List.foldl_cons, ih, lookupD_foldl_inner, transposeSpec, List.append_assoc]

theorem hasKey_buildFold (f : Table) (p : String) (acc : Table) :
    hasKey (f.foldl
        (fun acc2 e => e.2.foldl (fun a q => pushTag a q e.1) acc2) acc) p =
      (hasKey acc p || f.any (fun e => e.2.any (fun q => q == p))) := by
  induction f generalizing acc with
  | nil => simp
  | cons e f ih =>
    rw [List.foldl_cons, ih, hasKey_foldl_inner]
    simp [Bool.or_assoc]

theorem mem_transposeSpec (f : Table) (e : String × List String) (p : String)
    (hef : e ∈ f) (hp : p ∈ e.2) : e.1 ∈ transposeSpec f p := by
  induction f with
  | nil => cases hef
  | cons a f ih =>
    rcases List.mem_cons.mp hef with rfl | hef
    · apply List.mem_append_left
      exact List.mem_map.mpr ⟨p, List.mem_filter.mpr ⟨hp, by simp⟩, rfl⟩
    · exact List.mem_append_right _ (ih hef)

end HomeInteraction

namespace NoLinesVariant

theorem hasKey_eq_hasKey (tbl : Table) (k : String) :
    hasKey tbl k = HomeInteraction.hasKey tbl k := by
  induction tbl with
  | nil => rfl
  | cons e rest ih =>
    simp only [hasKey, HomeInteraction.hasKey, ih]

theorem bump_eq_bump : bump = HomeInteraction.bump := rfl

theorem pushTag_eq_pushTag (tbl : Table) (p t : String) :
    pushTag tbl p t = HomeInteraction.pushTag tbl p t := by
  unfold pushTag HomeInteraction.pushTag
  rw [hasKey_eq_hasKey, bump_eq_bump]

end NoLinesVariant

/-- C1 counterexample: the derived reverse list for `closing_time` is not
`[printmaker, photographer]` — `visual_artist` also lists `closing_time`. -/
theorem C1_closing_time_counterexample :
    ¬ (HomeInteraction.lookupD HomeInteraction.projectToTags "closing_time" =
        ["printmaker", "photographer"]) := by
  decide

/-- C1 (amended): the derived reverse list for `closing_time` is exactly
`[printmaker, photographer, visual_artist]`, and the list for `quite_off`
contains `photographer`, `web_developer`, `visual_artist`, `writer` in that
order (indeed it is exactly that list). -/
theorem C1_reverse_table_entries :
    HomeInteraction.lookupD HomeInteraction.projectToTags "closing_time" =
      ["printmaker", "photographer", "visual_artist"] ∧
    HomeInteraction.lookupD HomeInteraction.projectToTags "quite_off" =
      ["photographer", "web_developer", "visual_artist", "writer"] := by
  decide

/-- C3: `buildProjectToTags` is the exact transpose of its forward table:
for every entry `(T, ps)` of the forward table and every `P ∈ ps`, the
derived list for `P` contains `T`; the derived list for every `P` equals the
forward-declaration-order transpose; and the derived table has a key `P`
exactly when some forward entry lists `P`. -/
theorem C3_buildProjectToTags_transpose (f : Table) :
    (∀ e ∈ f, ∀ p ∈ e.2, e.1 ∈ HomeInteraction.lookupD
        (HomeInteraction.buildProjectToTags f) p) ∧
    (∀ p, HomeInteraction.lookupD (HomeInteraction.buildProjectToTags f) p =
        HomeInteraction.transposeSpec f p) ∧
    (∀ p, HomeInteraction.hasKey (HomeInteraction.buildProjectToTags f) p = true ↔
        ∃ e ∈ f, p ∈ e.2) := by
  have hlook : ∀ p, HomeInteraction.lookupD (HomeInteraction.buildProjectToTags f) p =
      HomeInteraction.transposeSpec f p := by
    intro p
    unfold HomeInteraction.buildProjectToTags
    rw [HomeInteraction.lookupD_buildFold]
    rfl
  refine ⟨?_, hlook, ?_⟩
  · intro e hef p hp
    rw [hlook p]
    exact HomeInteraction.mem_transposeSpec f e p hef hp
  · intro p
    unfold HomeInteraction.buildProjectToTags
    rw [HomeInteraction.hasKey_buildFold]
    simp only [HomeInteraction.hasKey, Bool.false_or, List.any_eq_true, beq_iff_eq]
    constructor
    · rintro ⟨e, he, q, hq, hqp⟩
      exact ⟨e, he, by simpa [hqp] using hq⟩
    · rintro ⟨e, he, hp⟩
      exact ⟨e, he, p, hp, rfl⟩

/-- Witness for C3 at the concrete forward table: instantiating the
transpose theorem shows `printmaker` lands in the derived list of `masks`. -/
theorem C3_buildProjectToTags_transpose_witness :
    "printmaker" ∈ HomeInteraction.lookupD
      (HomeInteraction.buildProjectToTags HomeInteraction.tagToProjects) "masks" :=
  (C3_buildProjectToTags_transpose HomeInteraction.tagToProjects).1
    ("printmaker", ["masks", "closing_time"]) (by decide) "masks" (by decide)

/-- C10: the reverse-table derivations of the two variants are extensionally
equal — identical reverse tables (same keys, same lists, same order) on every
forward table — and in particular agree on the lines-variant table, whose
entries are exactly the six tags shared by the two authored tables. -/
theorem C10_buildProjectToTags_extensionally_equal :
    (∀ f : Table,
        HomeInteraction.buildProjectToTags f = NoLinesVariant.buildProjectToTags f) ∧
    HomeInteraction.buildProjectToTags HomeInteraction.tagToProjects =
      NoLinesVariant.buildProjectToTags HomeInteraction.tagToProjects := by
  have h : ∀ f : Table,
      HomeInteraction.buildProjectToTags f = NoLinesVariant.buildProjectToTags f := by
    intro f
    unfold HomeInteraction.buildProjectToTags NoLinesVariant.buildProjectToTags
    have hfun :
        (fun (acc : Table) (e : String × List String) =>
          e.2.foldl (fun acc2 p => HomeInteraction.pushTag acc2 p e.1) acc) =
        (fun (acc : Table) (e : String × List String) =>
          e.2.foldl (fun acc2 p => NoLinesVariant.pushTag acc2 p e.1) acc) := by
      funext acc e
      have hinner :
          (fun (acc2 : Table) (p : String) => HomeInteraction.pushTag acc2 p e.1) =
          (fun (acc2 : Table) (p : String) => NoLinesVariant.pushTag acc2 p e.1) := by
        funext acc2 p
        exact (NoLinesVariant.pushTag_eq_pushTag acc2 p e.1).symm
      rw [hinner]
    rw [hfun]
  exact ⟨h, h HomeInteraction.tagToProjects⟩

/-- C4 counterexample: in the lines variant, a document with one tag element
but no `#home-lines` overlay element is skipped — setup does not proceed,
contradicting the claim that hover behavior is still set up when the
line-drawing surface is absent. -/
theorem C4_overlay_required_counterexample :
    HomeInteraction.initProceeds ⟨["printmaker"], [], false⟩ = false := by
  decide

/-- C4 (amended): setup is a silent no-op exactly when no tag element is
discovered or, in the lines variant only, when the `#home-lines` overlay is
also missing; the no-lines variant sets up whenever at least one tag element
exists. -/
theorem C4_init_skip_condition (d : Doc) :
    (HomeInteraction.initProceeds d = true ↔
        d.tagEls ≠ [] ∧ d.hasSvgOverlay = true) ∧
    (NoLinesVariant.initProceeds d = true ↔ d.tagEls ≠ []) := by
  constructor
  · simp [HomeInteraction.initProceeds, List.length_eq_zero, and_comm]
  · simp [NoLinesVariant.initProceeds, List.length_eq_zero]


namespace HomeInteraction

theorem Inv_initState (dom : Dom) : Inv dom (initState dom) :=
  Or.inl ⟨rfl, rfl, rfl, rfl⟩

theorem Inv_clearActive (dom : Dom) (s : St) : Inv dom (clearActive dom s) :=
  Or.inl ⟨rfl, rfl, rfl, rfl⟩

theorem Inv_advanceTo (dom : Dom) (t : Nat) (s : St) (h : Inv dom s) :
    Inv dom (advanceTo dom t s) := by
  unfold advanceTo
  cases hd : s.clearDeadline with
  | none => exact h
  | some d =>
    show Inv dom
      (if d ≤ t then clearActive dom { s with clearDeadline := none } else s)
    by_cases hle : d ≤ t
    · rw [if_pos hle]
      exact Inv_clearActive dom _
    · rw [if_neg hle]
      exact h

theorem Inv_scheduleClear (dom : Dom) (t : Nat) (s : St) (h : Inv dom s) :
    Inv dom (scheduleClear t s) := by
  rcases h with h | h | h
  · exact Or.inl h
  · exact Or.inr (Or.inl h)
  · exact Or.inr (Or.inr h)

theorem Inv_setActiveTag (dom : Dom) (k : String) (s : St) :
    Inv dom (setActiveTag dom k s) :=
  Or.inr (Or.inl ⟨k, rfl, rfl, rfl, rfl⟩)

theorem Inv_setActiveProject (dom : Dom) (p : String) (s : St) :
    Inv dom (setActiveProject dom p s) :=
  Or.inr (Or.inr ⟨p, rfl, rfl, rfl, rfl⟩)

theorem Inv_act (dom : Dom) (ev : Nat × Action) (s : St) (h : Inv dom s) :
    Inv dom (act dom ev s) := by
  obtain ⟨t, a⟩ := ev
  cases a with
  | enterTag k => exact Inv_setActiveTag dom k (advanceTo dom t s)
  | enterProject k => exact Inv_setActiveProject dom k (advanceTo dom t s)
  | leave => exact Inv_scheduleClear dom t (advanceTo dom t s) (Inv_advanceTo dom t s h)

/-- C6: in every state reachable by hover-enter, hover-leave and timer-fired
clear events, the direct hover target is a single tag, a single project, or
nothing: after `setActiveTag T` the highlighted projects are exactly
`tagToProjects[T]`, after `setActiveProject P` the active tags are exactly
`projectToTags[P]` (and each side's classes are derived likewise), and after
a clear both sides are empty. -/
theorem C6_hover_state_invariant (dom : Dom) (evs : List (Nat × Action)) :
    Inv dom (run dom evs) := by
  unfold run
  have h : ∀ s, Inv dom s → Inv dom (evs.foldl (fun s2 ev => act dom ev s2) s) := by
    induction evs with
    | nil => exact fun s h => h
    | cons ev evs ih =>
      intro s h
      exact ih _ (Inv_act dom ev s h)
  exact h _ (Inv_initState dom)

/-- C5: a hover-leave at `t1` schedules a clear for `t1 + CLEAR_DELAY_MS`
without touching any highlight; a hover-enter on tag `T2` at `t2` before
that deadline sees the old highlights still in place (the pending clear has
not fired), replaces them directly with `T2`'s highlight set, and cancels
the timeout so the clear never fires. -/
theorem C5_reenter_cancels_pending_clear (dom : Dom) (s : St) (t1 t2 : Nat)
    (k2 : String) (hnone : s.clearDeadline = none)
    (ht : t2 < t1 + CLEAR_DELAY_MS) :
    (act dom (t1, Action.leave) s).tagActive = s.tagActive ∧
    (act dom (t1, Action.leave) s).projHighlight = s.projHighlight ∧
    advanceTo dom t2 (act dom (t1, Action.leave) s) =
      act dom (t1, Action.leave) s ∧
    act dom (t2, Action.enterTag k2) (act dom (t1, Action.leave) s) =
      setActiveTag dom k2 s ∧
    (act dom (t2, Action.enterTag k2)
        (act dom (t1, Action.leave) s)).clearDeadline = none ∧
    (∀ t3, advanceTo dom t3
        (act dom (t2, Action.enterTag k2) (act dom (t1, Action.leave) s)) =
      act dom (t2, Action.enterTag k2) (act dom (t1, Action.leave) s)) := by
  have h1 : act dom (t1, Action.leave) s = scheduleClear t1 s := by
    show scheduleClear t1 (advanceTo dom t1 s) = scheduleClear t1 s
    unfold advanceTo
    rw [hnone]
  have hb : advanceTo dom t2 (scheduleClear t1 s) = scheduleClear t1 s := by
    show (if t1 + CLEAR_DELAY_MS ≤ t2 then
        clearActive dom { scheduleClear t1 s with clearDeadline := none }
      else scheduleClear t1 s) = scheduleClear t1 s
    rw [if_neg (Nat.not_le.mpr ht)]
  refine ⟨?_, ?_, ?_, rfl, rfl, fun t3 => rfl⟩
  · rw [h1]
    rfl
  · rw [h1]
    rfl
  · rw [h1]
    exact hb

/-- Witness for C5 on the demo page: leave at 0ms, re-enter `printmaker` at
100ms (before the 120ms deadline); the result is exactly the `printmaker`
highlight state. -/
theorem C5_reenter_cancels_pending_clear_witness :
    act demoDom (100, Action.enterTag "printmaker")
        (act demoDom (0, Action.leave) (initState demoDom)) =
      setActiveTag demoDom "printmaker" (initState demoDom) :=
  (C5_reenter_cancels_pending_clear demoDom (initState demoDom) 0 100
      "printmaker" rfl (by decide)).2.2.2.1

/-- C8: the class state written by a hover-enter is history-independent —
`setActiveTag`/`setActiveProject` assign every element's `is-active` /
`is-highlight` class from an explicit boolean, so the outcome is the same
from any two prior states (in particular from the idle state), and
re-entering the same key is idempotent. -/
theorem C8_hover_classes_history_independent (dom : Dom) (k : String)
    (s s2 : St) :
    ((setActiveTag dom k s).tagActive = (setActiveTag dom k s2).tagActive ∧
     (setActiveTag dom k s).projHighlight =
       (setActiveTag dom k s2).projHighlight) ∧
    ((setActiveProject dom k s).tagActive =
       (setActiveProject dom k s2).tagActive ∧
     (setActiveProject dom k s).projHighlight =
       (setActiveProject dom k s2).projHighlight) ∧
    setActiveTag dom k (setActiveTag dom k s) = setActiveTag dom k s ∧
    setActiveProject dom k (setActiveProject dom k s) =
      setActiveProject dom k s :=
  ⟨⟨rfl, rfl⟩, ⟨rfl, rfl⟩, rfl, rfl⟩

/-- C2 evaluated at the failing input: hovering project `gallery_design`
(whose derived tag list `[conceptual_designer]` has length 1) makes
`drawLines` take the `activeTagKeys.length === 1` branch, so it draws TWO
curves — one per project of `conceptual_designer` — instead of the single
curve per associated tag the claim demands; the second curve starts at the
fanned anchor of `the_threes` (y = 211 + 3), a project that is not even
highlighted, rather than at `gallery_design`'s anchor (y = 171 ± offset). -/
theorem C2_project_hover_wrong_branch :
    lookupD projectToTags "gallery_design" = ["conceptual_designer"] ∧
    (setActiveProject demoDom "gallery_design"
        (initState demoDom)).activeProjectKey = some "gallery_design" ∧
    (setActiveProject demoDom "gallery_design"
        (initState demoDom)).activeTagKeys = ["conceptual_designer"] ∧
    (drawLines demoDom ["conceptual_designer"]
        (some "gallery_design")).length = 2 ∧
    (drawLines demoDom ["conceptual_designer"]
        (some "gallery_design")).map (fun l => l.tag) =
      ["conceptual_designer", "conceptual_designer"] ∧
    (drawLines demoDom ["conceptual_designer"]
        (some "gallery_design")).map (fun l => (l.start, l.endp)) =
      [(⟨210, 168⟩, ⟨490, 88⟩), (⟨210, 214⟩, ⟨490, 94⟩)] := by
  have h1 : findTagEl demoDom "conceptual_designer" =
      some ("conceptual_designer", ⟨500, 580, 80, 20⟩) := by decide
  have h2 : findProjectEl demoDom "gallery_design" =
      some ("gallery_design", ⟨40, 200, 160, 20⟩) := by decide
  have h3 : findProjectEl demoDom "the_threes" =
      some ("the_threes", ⟨40, 200, 200, 20⟩) := by decide
  have h4 : lookupD tagToProjects "conceptual_designer" =
      ["gallery_design", "the_threes"] := by decide
  refine ⟨by decide, by decide, by decide, by decide, by decide, ?_⟩
  norm_num [drawLines]
  simp only [h4, h1, List.enum, List.enumFrom, List.filterMap_cons,
    List.filterMap_nil, h2, h3, List.map_cons, List.map_nil]
  norm_num [projectAnchor, tagAnchor, LINE_Y_OFFSET_STEP, BEZIER_DX,
    Pt.mk.injEq, Prod.mk.injEq]

theorem drawLines_paint (dom : Dom) (atk : List String) (apk : Option String)
    (l : Line) (hl : l ∈ drawLines dom atk apk) :
    l.color = tagAccent l.tag ∧
    l.stopOpacity1 = lineOpacity l.tag * 0.6 ∧
    l.stopOpacity2 = lineOpacity l.tag := by
  simp only [drawLines] at hl
  split at hl
  · split at hl
    · exact absurd hl (by simp)
    · split at hl
      · exact absurd hl (by simp)
      · obtain ⟨ip, hip, hf⟩ := List.mem_filterMap.mp hl
        split at hf
        · cases hf
        · rw [← Option.some.inj hf]
          exact ⟨rfl, rfl, rfl⟩
  · split at hl
    · exact absurd hl (by simp)
    · split at hl
      · exact absurd hl (by simp)
      · obtain ⟨it, hit, hf⟩ := List.mem_filterMap.mp hl
        split at hf
        · cases hf
        · rw [← Option.some.inj hf]
          exact ⟨rfl, rfl, rfl⟩

/-- C9: every connector `drawLines` renders carries the fallback gradient
stop-color `#6a6a6a` when its tag key has no `TAG_ACCENTS` entry, and its
stroke (target-stop) opacity is 0.22 exactly for `visual_artist` and 0.48
for every other tag key. -/
theorem C9_line_fallback_color_and_opacity (dom : Dom) (atk : List String)
    (apk : Option String) (l : Line) (hl : l ∈ drawLines dom atk apk) :
    (TAG_ACCENTS.find? (fun e => e.1 == l.tag) = none →
        l.color = "#6a6a6a") ∧
    (l.tag = "visual_artist" → l.stopOpacity2 = 0.22) ∧
    (l.tag ≠ "visual_artist" → l.stopOpacity2 = 0.48) := by
  obtain ⟨hc, _, h2⟩ := drawLines_paint dom atk apk l hl
  refine ⟨?_, ?_, ?_⟩
  · intro hnone
    rw [hc]
    unfold tagAccent
    rw [hnone]
    rfl
  · intro hv
    rw [h2]
    unfold lineOpacity
    rw [hv]
    rfl
  · intro hv
    rw [h2]
    simp [lineOpacity, hv]

/-- Witness for C9: the connector from `masks` to the hovered `printmaker`
tag on the demo page has target-stop opacity 0.48 (its tag is not
`visual_artist`; its accent is the authored one, so the fallback
implication is vacuous on it). -/
theorem C9_line_fallback_color_and_opacity_witness :
    (TAG_ACCENTS.find? (fun e => e.1 == demoLine.tag) = none →
        demoLine.color = "#6a6a6a") ∧
    (demoLine.tag = "visual_artist" → demoLine.stopOpacity2 = 0.22) ∧
    (demoLine.tag ≠ "visual_artist" → demoLine.stopOpacity2 = 0.48) :=
  C9_line_fallback_color_and_opacity demoDom ["printmaker"] none demoLine
    (by
      have h1 : findTagEl demoDom "printmaker" =
          some ("printmaker", ⟨500, 580, 0, 20⟩) := by decide
      have h2 : findProjectEl demoDom "masks" =
          some ("masks", ⟨40, 200, 0, 20⟩) := by decide
      have h3 : findProjectEl demoDom "closing_time" =
          some ("closing_time", ⟨40, 200, 80, 20⟩) := by decide
      have h4 : lookupD tagToProjects "printmaker" =
          ["masks", "closing_time"] := by decide
      norm_num [drawLines]
      simp only [h4, h1, List.enum, List.enumFrom, List.filterMap_cons,
        List.filterMap_nil, h2, h3, List.mem_cons]
      left
      norm_num [demoLine, Line.mk.injEq, Pt.mk.injEq, tagAccent, TAG_ACCENTS,
        lineOpacity, projectAnchor, tagAnchor, LINE_Y_OFFSET_STEP, BEZIER_DX]
      simp [List.find?])

end HomeInteraction
namespace TestPush

theorem pathCheck_true (p : String) : pathCheck true p = ("  ✓ " ++ p, 0) := rfl

theorem pathCheck_false (p : String) :
    pathCheck false p = ("  ✗ MISSING: " ++ p, 1) := rfl

theorem isFailLine_ok (p : String) : isFailLine ("  ✓ " ++ p) = false := rfl

theorem isFailLine_missing (p : String) :
    isFailLine ("  ✗ MISSING: " ++ p) = true := rfl

theorem isFailLine_header :
    isFailLine "[test-push] Checking dist output...\n" = false := rfl

theorem isFailLine_blank : isFailLine "" = false := rfl

theorem isFailLine_robots1 :
    isFailLine "\n  ✗ robots.txt should contain Allow and Sitemap" = true := rfl

theorem isFailLine_robots2 :
    isFailLine ("\n  ✗ robots.txt Sitemap should use " ++ SITE_URL) = true := rfl

theorem isFailLine_sitemapIndex :
    isFailLine ("\n  ✗ sitemap-index.xml should reference " ++ SITE_URL) = true := rfl

theorem isFailLine_sitemap0 (t : String) :
    isFailLine ("\n  ✗ sitemap-0.xml expected at least 9 URLs, got " ++ t) = true := rfl

theorem isFailLine_canonical :
    isFailLine "\n  ✗ index.html should contain canonical https://daipan.art" = true := rfl

theorem isFailLine_title :
    isFailLine "\n  ✗ index.html should have a title" = true := rfl

theorem isFailLine_failedSummary (s t : String) :
    isFailLine (("[test-push] FAILED: " ++ s) ++ t) = false := rfl

theorem isFailLine_passedSummary :
    isFailLine "[test-push] All checks passed. Safe to push.\n" = false := rfl

theorem countP_pathLines (ps : List String) (ex : String → Bool) :
    ((ps.map (fun p => pathCheck (ex p) p)).map (fun r => r.1)).countP isFailLine =
      ((ps.map (fun p => pathCheck (ex p) p)).map (fun r => r.2)).sum := by
  induction ps with
  | nil => rfl
  | cons p ps ih =>
    cases hex : ex p with
    | true =>
      simp only [List.map_cons, hex, pathCheck_true, List.countP_cons,
        List.sum_cons, isFailLine_ok]
      rw [ih]
      simp
    | false =>
      simp only [List.map_cons, hex, pathCheck_false, List.countP_cons,
        List.sum_cons, isFailLine_missing]
      rw [ih]
      simp
      omega

theorem pathSum_eq_zero_iff (ps : List String) (ex : String → Bool) :
    (((ps.map (fun p => pathCheck (ex p) p)).map (fun r => r.2)).sum = 0) ↔
      ps.all ex = true := by
  induction ps with
  | nil => simp
  | cons p ps ih =>
    cases hex : ex p with
    | true =>
      simp only [List.map_cons, hex, pathCheck_true, List.sum_cons,
        List.all_cons, Bool.true_and, Nat.zero_add]
      exact ih
    | false =>
      simp only [List.map_cons, hex, pathCheck_false, List.sum_cons,
        List.all_cons, Bool.false_and]
      constructor
      · intro h
        omega
      · intro h
        cases h
theorem countP_robots (files : List (String × String)) :
    ((robotsChecks files).1).countP isFailLine = (robotsChecks files).2 := by
  unfold robotsChecks
  split
  · dsimp only
    split <;> split <;>
      simp [List.countP_append, List.countP_cons, isFailLine_robots1,
        isFailLine_robots2]
  · rfl

theorem countP_sitemapIndex (files : List (String × String)) :
    ((sitemapIndexCheck files).1).countP isFailLine =
      (sitemapIndexCheck files).2 := by
  unfold sitemapIndexCheck
  split
  · dsimp only
    split <;> simp [List.countP_cons, isFailLine_sitemapIndex]
  · rfl

theorem countP_sitemap0 (files : List (String × String)) :
    ((sitemap0Check files).1).countP isFailLine = (sitemap0Check files).2 := by
  unfold sitemap0Check
  split
  · dsimp only
    split <;> simp [List.countP_cons, isFailLine_sitemap0]
  · rfl

theorem countP_index (files : List (String × String)) :
    ((indexCheck files).1).countP isFailLine = (indexCheck files).2 := by
  unfold indexCheck
  split
  · dsimp only
    split <;> split <;>
      simp [List.countP_append, List.countP_cons, isFailLine_canonical,
        isFailLine_title]
  · rfl

theorem countP_summary (c : Prop) [Decidable c] (n : Nat) :
    (if c then
        ["", "[test-push] FAILED: " ++ toString n ++ " check(s) failed.\n"]
      else
        ["", "[test-push] All checks passed. Safe to push.\n"]).countP
      isFailLine = 0 := by
  split
  · simp [List.countP_cons, isFailLine_blank, isFailLine_failedSummary]
  · simp [List.countP_cons, isFailLine_blank, isFailLine_passedSummary]

theorem testPush_logs_count (files : List (String × String)) :
    (testPush files).logs.countP isFailLine = (testPush files).failed := by
  simp only [testPush]
  rw [List.countP_append, List.countP_append, List.countP_append,
    List.countP_append, List.countP_append, List.countP_cons]
  rw [countP_pathLines requiredPaths (fun p => existsSync files p)]
  rw [countP_robots, countP_sitemapIndex, countP_sitemap0, countP_index,
    countP_summary]
  simp [isFailLine_header]

theorem testPush_exitCode (files : List (String × String)) :
    (testPush files).exitCode = if 0 < (testPush files).failed then 1 else 0 :=
  rfl

theorem robots_failed_iff (files : List (String × String))
    (hex : existsSync files "robots.txt" = true) :
    ((robotsChecks files).2 = 0 ↔
      (includesStr (readFileSync files "robots.txt") "Allow:" &&
       includesStr (readFileSync files "robots.txt") "Sitemap:" &&
       includesStr (readFileSync files "robots.txt") SITE_URL) = true) := by
  unfold robotsChecks
  rw [if_pos hex]
  dsimp only
  cases hA : includesStr (readFileSync files "robots.txt") "Allow:" <;>
  cases hB : includesStr (readFileSync files "robots.txt") "Sitemap:" <;>
  cases hC : includesStr (readFileSync files "robots.txt") SITE_URL <;>
    simp [hA, hB, hC]

theorem sitemapIndex_failed_iff (files : List (String × String))
    (hex : existsSync files "sitemap-index.xml" = true) :
    ((sitemapIndexCheck files).2 = 0 ↔
      includesStr (readFileSync files "sitemap-index.xml") SITE_URL = true) := by
  unfold sitemapIndexCheck
  rw [if_pos hex]
  dsimp only
  cases hS : includesStr (readFileSync files "sitemap-index.xml") SITE_URL <;>
    simp [hS]

theorem sitemap0_failed_iff (files : List (String × String))
    (hex : existsSync files "sitemap-0.xml" = true) :
    ((sitemap0Check files).2 = 0 ↔
      decide (9 ≤ countLoc (readFileSync files "sitemap-0.xml")) = true) := by
  unfold sitemap0Check
  rw [if_pos hex]
  dsimp only
  by_cases hc : countLoc (readFileSync files "sitemap-0.xml") < 9
  · rw [if_pos hc]
    simp only [decide_eq_true_eq]
    constructor
    · intro h
      omega
    · intro h
      omega
  · rw [if_neg hc]
    simp only [decide_eq_true_eq]
    constructor
    · intro h
      omega
    · intro h
      trivial

theorem index_failed_iff (files : List (String × String))
    (hex : existsSync files "index.html" = true) :
    ((indexCheck files).2 = 0 ↔
      (includesStr (readFileSync files "index.html")
          "href=\"https://daipan.art\"" &&
       includesStr (readFileSync files "index.html") "<title>") = true) := by
  unfold indexCheck
  rw [if_pos hex]
  dsimp only
  cases hD : includesStr (readFileSync files "index.html")
      "href=\"https://daipan.art\"" <;>
  cases hE : includesStr (readFileSync files "index.html") "<title>" <;>
    simp [hD, hE]

theorem testPush_failed_eq_zero_iff (files : List (String × String)) :
    ((testPush files).failed = 0 ↔ allChecksPass files = true) := by
  have hfailed : (testPush files).failed =
      ((requiredPaths.map (fun p => pathCheck (existsSync files p) p)).map
        (fun r => r.2)).sum +
      (robotsChecks files).2 + (sitemapIndexCheck files).2 +
      (sitemap0Check files).2 + (indexCheck files).2 := rfl
  rw [hfailed]
  unfold allChecksPass
  constructor
  · intro h
    have h1 : ((requiredPaths.map (fun p => pathCheck (existsSync files p) p)).map
        (fun r => r.2)).sum = 0 := by omega
    have h2 : (robotsChecks files).2 = 0 := by omega
    have h3 : (sitemapIndexCheck files).2 = 0 := by omega
    have h4 : (sitemap0Check files).2 = 0 := by omega
    have h5 : (indexCheck files).2 = 0 := by omega
    have hall := (pathSum_eq_zero_iff requiredPaths
      (fun p => existsSync files p)).mp h1
    have hexR : existsSync files "robots.txt" = true :=
      List.all_eq_true.mp hall "robots.txt" (by decide)
    have hexS : existsSync files "sitemap-index.xml" = true :=
      List.all_eq_true.mp hall "sitemap-index.xml" (by decide)
    have hexS0 : existsSync files "sitemap-0.xml" = true :=
      List.all_eq_true.mp hall "sitemap-0.xml" (by decide)
    have hexI : existsSync files "index.html" = true :=
      List.all_eq_true.mp hall "index.html" (by decide)
    have hr := (robots_failed_iff files hexR).mp h2
    have hs := (sitemapIndex_failed_iff files hexS).mp h3
    have h0 := (sitemap0_failed_iff files hexS0).mp h4
    have hi := (index_failed_iff files hexI).mp h5
    simp only [Bool.and_eq_true] at hr hi
    obtain ⟨⟨hA, hB⟩, hC⟩ := hr
    obtain ⟨hD, hE⟩ := hi
    simp [hall, hA, hB, hC, hs, h0, hD, hE]
  · intro h
    simp only [Bool.and_eq_true] at h
    obtain ⟨⟨⟨⟨⟨⟨⟨hall, hA⟩, hB⟩, hC⟩, hS⟩, h0⟩, hD⟩, hE⟩ := h
    have hexR : existsSync files "robots.txt" = true :=
      List.all_eq_true.mp hall "robots.txt" (by decide)
    have hexS : existsSync files "sitemap-index.xml" = true :=
      List.all_eq_true.mp hall "sitemap-index.xml" (by decide)
    have hexS0 : existsSync files "sitemap-0.xml" = true :=
      List.all_eq_true.mp hall "sitemap-0.xml" (by decide)
    have hexI : existsSync files "index.html" = true :=
      List.all_eq_true.mp hall "index.html" (by decide)
    have h1 : ((requiredPaths.map (fun p => pathCheck (existsSync files p) p)).map
        (fun r => r.2)).sum = 0 :=
      (pathSum_eq_zero_iff requiredPaths (fun p => existsSync files p)).mpr hall
    have h2 : (robotsChecks files).2 = 0 :=
      (robots_failed_iff files hexR).mpr (by simp [hA, hB, hC])
    have h3 : (sitemapIndexCheck files).2 = 0 :=
      (sitemapIndex_failed_iff files hexS).mpr hS
    have h4 : (sitemap0Check files).2 = 0 :=
      (sitemap0_failed_iff files hexS0).mpr h0
    have h5 : (indexCheck files).2 = 0 :=
      (index_failed_iff files hexI).mpr (by simp [hD, hE])
    omega

/-- C7: the build checker evaluates every check (its failure counter is the
flat sum over all checks), exits non-zero exactly when at least one check
failed, exits 0 exactly when every check passes, and prints exactly one
`✗` line per unmet condition. -/
theorem C7_build_checker_reports_all_failures (files : List (String × String)) :
    ((testPush files).exitCode ≠ 0 ↔ 0 < (testPush files).failed) ∧
    ((testPush files).exitCode = 0 ↔ allChecksPass files = true) ∧
    (testPush files).logs.countP isFailLine = (testPush files).failed := by
  refine ⟨?_, ?_, testPush_logs_count files⟩
  · rw [testPush_exitCode]
    split <;> omega
  · rw [testPush_exitCode, ← testPush_failed_eq_zero_iff files]
    split <;> omega

end TestPush
